import Mathlib

/-!
Verification of the Atlas-GRAG hybrid retriever (`src/retriever/hybrid.py`).

The Python module is embedded shallowly: the external collaborators
(Ollama language model, ChromaDB vector store, Neo4j graph store) are
modelled as an `Env` of fallible functions (`Except` models a raised
exception), and every retriever method is a pure Lean function that also
returns the list of external calls it performed, so that "no query is
issued" style properties can be stated.  `json.loads` is modelled by an
executable recursive-descent JSON parser (numbers at integer precision;
none of the properties below exercises fractional numbers).
-/

namespace AtlasGrag

/-- Model of a decoded JSON value (the result of Python `json.loads`). -/
inductive Json where
  | null : Json
  | bool (b : Bool) : Json
  | num (n : Int) : Json
  | str (s : String) : Json
  | arr (xs : List Json) : Json
  | obj (kvs : List (String × Json)) : Json

/-- JSON insignificant whitespace, as accepted by Python `json.loads`. -/
def isJsonWs (c : Char) : Bool :=
  c = ' ' || c = '\t' || c = '\n' || c = '\r'

/-- Drop leading JSON whitespace. -/
def skipWs : List Char → List Char
  | [] => []
  | c :: cs => if isJsonWs c then skipWs cs else c :: cs

/-- Hex digit value, for \uXXXX escapes. -/
def hexVal (c : Char) : Option Nat :=
  if '0' ≤ c ∧ c ≤ '9' then some (c.toNat - '0'.toNat)
  else if 'a' ≤ c ∧ c ≤ 'f' then some (c.toNat - 'a'.toNat + 10)
  else if 'A' ≤ c ∧ c ≤ 'F' then some (c.toNat - 'A'.toNat + 10)
  else none

/-- Decode the body of a JSON string literal (after the opening quote),
returning the decoded content and the input after the closing quote.
Control characters are rejected, as in Python strict mode. -/
def parseStringBody : Nat → List Char → Option (List Char × List Char)
  | 0, _ => none
  | _ + 1, [] => none
  | fuel + 1, c :: cs =>
    if c = '"' then some ([], cs)
    else if c = '\\' then
      match cs with
      | [] => none
      | e :: cs2 =>
        let decoded : Option (Char × List Char) :=
          if e = '"' then some ('"', cs2)
          else if e = '\\' then some ('\\', cs2)
          else if e = '/' then some ('/', cs2)
          else if e = 'b' then some ('\x08', cs2)
          else if e = 'f' then some ('\x0C', cs2)
          else if e = 'n' then some ('\n', cs2)
          else if e = 'r' then some ('\r', cs2)
          else if e = 't' then some ('\t', cs2)
          else if e = 'u' then
            match cs2 with
            | h1 :: h2 :: h3 :: h4 :: cs3 =>
              match hexVal h1, hexVal h2, hexVal h3, hexVal h4 with
              | some a, some b, some c3, some d =>
                some (Char.ofNat (((a * 16 + b) * 16 + c3) * 16 + d), cs3)
              | _, _, _, _ => none
            | _ => none
          else none
        match decoded with
        | some (ch, rest) =>
          match parseStringBody fuel rest with
          | some (s, r) => some (ch :: s, r)
          | none => none
        | none => none
    else if c.toNat < 0x20 then none
    else
      match parseStringBody fuel cs with
      | some (s, r) => some (c :: s, r)
      | none => none

/-- Parse one or more decimal digits. -/
def parseDigits : List Char → Option (List Char × List Char)
  | [] => none
  | c :: cs =>
    if '0' ≤ c ∧ c ≤ '9' then
      match cs with
      | [] => some ([c], [])
      | c2 :: _ =>
        if '0' ≤ c2 ∧ c2 ≤ '9' then
          match parseDigits cs with
          | some (ds, r) => some (c :: ds, r)
          | none => none
        else some ([c], cs)
    else none

/-- Digits to a natural number. -/
def digitsToNat (ds : List Char) : Nat :=
  ds.foldl (fun acc c => acc * 10 + (c.toNat - '0'.toNat)) 0

/-- Parse a JSON integer (optional minus sign; leading zeros rejected as
in Python `json.loads`). -/
def parseIntNum (cs : List Char) : Option (Int × List Char) :=
  let core : List Char → Option (Nat × List Char) := fun l =>
    match parseDigits l with
    | some (ds, r) =>
      match ds with
      | '0' :: _ :: _ => none
      | _ => some (digitsToNat ds, r)
    | none => none
  match cs with
  | '-' :: cs2 =>
    match core cs2 with
    | some (n, r) => some (-(n : Int), r)
    | none => none
  | _ =>
    match core cs with
    | some (n, r) => some ((n : Int), r)
    | none => none

mutual

/-- Parse a JSON value, returning the value and remaining input. -/
def parseVal : Nat → List Char → Option (Json × List Char)
  | 0, _ => none
  | fuel + 1, cs =>
    match skipWs cs with
    | 'n' :: 'u' :: 'l' :: 'l' :: rest => some (Json.null, rest)
    | 't' :: 'r' :: 'u' :: 'e' :: rest => some (Json.bool true, rest)
    | 'f' :: 'a' :: 'l' :: 's' :: 'e' :: rest => some (Json.bool false, rest)
    | '"' :: rest =>
      match parseStringBody fuel rest with
      | some (s, r) => some (Json.str (String.mk s), r)
      | none => none
    | '[' :: rest =>
      match skipWs rest with
      | ']' :: r => some (Json.arr [], r)
      | _ => parseArrItems fuel rest []
    | '{' :: rest =>
      match skipWs rest with
      | '}' :: r => some (Json.obj [], r)
      | _ => parseObjItems fuel rest []
    | rest =>
      match parseIntNum rest with
      | some (n, r) => some (Json.num n, r)
      | none => none

/-- Parse the items of a JSON array (after the opening bracket),
accumulating parsed elements. -/
def parseArrItems : Nat → List Char → List Json → Option (Json × List Char)
  | 0, _, _ => none
  | fuel + 1, cs, acc =>
    match parseVal fuel cs with
    | some (v, rest) =>
      match skipWs rest with
      | ',' :: rest2 => parseArrItems fuel rest2 (acc ++ [v])
      | ']' :: rest2 => some (Json.arr (acc ++ [v]), rest2)
      | _ => none
    | none => none

/-- Parse the members of a JSON object (after the opening brace),
accumulating parsed key-value pairs. -/
def parseObjItems : Nat → List Char → List (String × Json) →
    Option (Json × List Char)
  | 0, _, _ => none
  | fuel + 1, cs, acc =>
    match skipWs cs with
    | '"' :: rest =>
      match parseStringBody fuel rest with
      | some (k, rest2) =>
        match skipWs rest2 with
        | ':' :: rest3 =>
          match parseVal fuel rest3 with
          | some (v, rest4) =>
            match skipWs rest4 with
            | ',' :: rest5 => parseObjItems fuel rest5 (acc ++ [(String.mk k, v)])
            | '}' :: rest5 => some (Json.obj (acc ++ [(String.mk k, v)]), rest5)
            | _ => none
          | none => none
        | _ => none
      | none => none
    | _ => none

end

/-- Model of Python `json.loads`: parse one value, reject trailing
non-whitespace (Python raises "Extra data" there). -/
def jsonLoads (cs : List Char) : Option Json :=
  match parseVal (2 * cs.length + 4) cs with
  | some (j, rest) => if skipWs rest = [] then some j else none
  | none => none

/-- A single-quote character, used by Python `repr` of strings. -/
def squote : String := String.mk [Char.ofNat 39]

mutual

/-- Python `repr()` of an object decoded from JSON (simplified: strings
render single-quoted without escape processing; none of the concrete
inputs used below exercises strings needing escapes). -/
def pyRepr : Json → String
  | Json.null => "None"
  | Json.bool true => "True"
  | Json.bool false => "False"
  | Json.num n => toString n
  | Json.str s => squote ++ s ++ squote
  | Json.arr xs => "[" ++ pyReprList xs ++ "]"
  | Json.obj kvs => "\x7b" ++ pyReprPairs kvs ++ "\x7d"

/-- Comma-separated `repr`s of list elements. -/
def pyReprList : List Json → String
  | [] => ""
  | [x] => pyRepr x
  | x :: y :: xs => pyRepr x ++ ", " ++ pyReprList (y :: xs)

/-- Comma-separated `repr`s of dict entries. -/
def pyReprPairs : List (String × Json) → String
  | [] => ""
  | [(k, v)] => squote ++ k ++ squote ++ ": " ++ pyRepr v
  | (k, v) :: p :: ps =>
    squote ++ k ++ squote ++ ": " ++ pyRepr v ++ ", " ++ pyReprPairs (p :: ps)

end

/-- Python `str()` applied to an object decoded from JSON — the coercion
`str(e)` in `_extract_entities`: a string is itself, anything else prints
as its `repr`. -/
def pyStr : Json → String
  | Json.str s => s
  | Json.null => pyRepr Json.null
  | Json.bool b => pyRepr (Json.bool b)
  | Json.num n => pyRepr (Json.num n)
  | Json.arr xs => pyRepr (Json.arr xs)
  | Json.obj kvs => pyRepr (Json.obj kvs)

/-- Index of the last occurrence of `c` in `cs`, if any. -/
def lastIdxOf (c : Char) (cs : List Char) : Option Nat :=
  (cs.reverse.findIdx? (fun x => x = c)).map (fun k => cs.length - 1 - k)

/-- Model of `re.search` applied to the greedy dot-matches-all bracket
pattern in `_extract_entities`: the match, when it exists, runs from the
first opening bracket of the whole string to its last closing bracket,
and exists exactly when that closing bracket lies strictly after that
opening bracket. -/
def jsonSpan (cs : List Char) : Option (List Char) :=
  match cs.findIdx? (fun c => c = '['), lastIdxOf ']' cs with
  | some i, some j =>
    if i < j then some ((cs.drop i).take (j - i + 1)) else none
  | _, _ => none

/-- Embedding of the `GraphPath` dataclass. -/
structure GraphPath where
  nodes : List String
  relationships : List String
  path_length : Int
deriving DecidableEq

/-- The `parts` list built by `GraphPath.to_string`: each node name,
followed by an arrow label while a relationship at that index exists. -/
def pathParts : List String → List String → List String
  | [], _ => []
  | n :: ns, [] => n :: pathParts ns []
  | n :: ns, r :: rs => n :: ("-[" ++ r ++ "]->") :: pathParts ns rs

/-- Embedding of `GraphPath.to_string`. -/
def GraphPath.to_string (p : GraphPath) : String :=
  if p.nodes = [] then ""
  else String.intercalate " " (pathParts p.nodes p.relationships)

/-- Embedding of the `RetrievalResult` dataclass. -/
structure RetrievalResult where
  query : String
  vector_chunks : List String
  graph_context : String
  entities : List String
  graph_paths : List GraphPath
deriving DecidableEq

/-- The numbered document lines produced by `enumerate(self.vector_chunks, 1)`. -/
def numberChunks : Nat → List String → List String
  | _, [] => []
  | i, c :: cs => (toString i ++ ". " ++ c) :: numberChunks (i + 1) cs

/-- Embedding of `RetrievalResult.get_combined_context`: sections are
appended in program order, each guarded by Python truthiness of its
source field, then newline-joined. -/
def RetrievalResult.get_combined_context (r : RetrievalResult) : String :=
  let sections : List String :=
    (if r.vector_chunks = [] then []
     else "## Relevant Documents" :: numberChunks 1 r.vector_chunks)
    ++ (if r.graph_context = "" then []
        else ["\n## Knowledge Graph Relationships", r.graph_context])
    ++ (if r.graph_paths = [] then []
        else "\n## Graph Paths" :: r.graph_paths.map (fun p => "- " ++ p.to_string))
  String.intercalate "\n" sections

/-- A row returned by the graph query executor: a loosely-typed field
map; `none` models a key absent from the dict (so `dict.get` with a
default becomes `Option.getD`).  Neighbor rows use `source`, `target`,
`relationships`, `path_length`; path rows use `nodes`, `relationships`,
`path_length`. -/
structure Row where
  source : Option String
  target : Option String
  nodes : Option (List String)
  relationships : Option (List String)
  path_length : Option Int
deriving DecidableEq

/-- A record returned by the vector similarity search; only the
`document` field is ever read by the retriever. -/
structure VectorDoc where
  document : Option String
deriving DecidableEq

/-- One call to an external collaborator, recorded so that "no query is
issued / no model call is made" properties can be stated. -/
inductive Call where
  | llm (prompt : String) : Call
  | vector (collection query : String) (n : Nat) : Call
  | graph (query : String) : Call
  | health : Call
deriving DecidableEq

/-- The external collaborators: the language model, the vector store,
and the graph store.  `Except.error` models the call raising. -/
structure Env where
  llm : String → Except String String
  querySimilar : String → String → Nat → Except String (List VectorDoc)
  executeQuery : String → Except String (List Row)
  isHealthy : Except String Bool

/-- The retriever's construction-time configuration. -/
structure RetrieverConfig where
  vectorTopK : Nat
  maxHops : Nat
  collectionName : String

/-- `ENTITY_EXTRACTION_PROMPT.format(query=query)`: the fixed
instruction-plus-example prompt with the question substituted. -/
def entityExtractionPrompt (query : String) : String :=
  "You are an entity extraction system for supply chain analysis.\n"
  ++ "Extract all named entities (companies, products, locations, events) from the user's question.\n\n"
  ++ "Return ONLY a JSON array of entity names, nothing else.\n\n"
  ++ "Example:\n"
  ++ "Question: \"How will the Singapore port strike affect GlobalTech's production?\"\n"
  ++ "Answer: [\"Singapore\", \"GlobalTech\"]\n\n"
  ++ "Question: \"" ++ query ++ "\"\nAnswer:"

/-- The response-parsing half of `_extract_entities`: locate the
bracketed span, `json.loads` it, and on a decoded list coerce every
element to text; every failure (no span, decode error, non-list value)
yields the empty list. -/
def parseEntityResponse (response : String) : List String :=
  match jsonSpan response.toList with
  | some span =>
    match jsonLoads span with
    | some (Json.arr xs) => xs.map pyStr
    | some _ => []
    | none => []
  | none => []

/-- Embedding of `HybridRetriever._extract_entities`: one model call;
a raising model call is caught and yields the empty list. -/
def extractEntities (env : Env) (query : String) : List String × List Call :=
  let prompt := entityExtractionPrompt query
  match env.llm prompt with
  | Except.ok response => (parseEntityResponse response, [Call.llm prompt])
  | Except.error _ => ([], [Call.llm prompt])

/-- Embedding of `HybridRetriever._retrieve_vector`; `n_results or
self._vector_top_k` uses Python truthiness, so `some 0` also falls back
to the configured top-k. -/
def retrieveVector (cfg : RetrieverConfig) (env : Env) (query : String)
    (nResults : Option Nat) : List VectorDoc × List Call :=
  let n := match nResults with
    | some k => if k = 0 then cfg.vectorTopK else k
    | none => cfg.vectorTopK
  match env.querySimilar cfg.collectionName query n with
  | Except.ok docs => (docs, [Call.vector cfg.collectionName query n])
  | Except.error _ => ([], [Call.vector cfg.collectionName query n])

/-- Embedding of `HybridRetriever._build_neighbor_query` (the single
quotes of the Cypher text are built from `squote`). -/
def buildNeighborQuery (entity : String) (maxHops : Nat) : String :=
  "\n        MATCH (n)\n        WHERE n.name =~ " ++ squote ++ "(?i).*"
  ++ entity ++ ".*" ++ squote
  ++ "\n        MATCH path = (n)-[*1.." ++ toString maxHops
  ++ "]-(neighbor)\n        WHERE neighbor <> n\n        RETURN DISTINCT n.name AS source, \n               neighbor.name AS target,\n               [r IN relationships(path) | type(r)] AS relationships,\n               length(path) AS path_length\n        ORDER BY path_length\n        LIMIT 10\n        "

/-- Embedding of `HybridRetriever._retrieve_graph_neighbors`; a raising
query is caught and yields the empty list. -/
def retrieveGraphNeighbors (cfg : RetrieverConfig) (env : Env)
    (entity : String) (maxHops : Option Nat) : List Row × List Call :=
  let h := match maxHops with
    | some k => if k = 0 then cfg.maxHops else k
    | none => cfg.maxHops
  let q := buildNeighborQuery entity h
  match env.executeQuery q with
  | Except.ok rows => (rows, [Call.graph q])
  | Except.error _ => ([], [Call.graph q])

/-- The shortest-path Cypher query issued by
`_get_paths_between_entities` for the first two entities. -/
def buildPathQuery (cfg : RetrieverConfig) (e1 e2 : String) : String :=
  "\n            MATCH (a), (b)\n            WHERE a.name =~ " ++ squote
  ++ "(?i).*" ++ e1 ++ ".*" ++ squote ++ "\n              AND b.name =~ "
  ++ squote ++ "(?i).*" ++ e2 ++ ".*" ++ squote
  ++ "\n            MATCH path = shortestPath((a)-[*.." ++ toString (cfg.maxHops + 1)
  ++ "]-(b))\n            RETURN [n IN nodes(path) | n.name] AS nodes,\n                   [r IN relationships(path) | type(r)] AS relationships,\n                   length(path) AS path_length\n            LIMIT 3\n            "

/-- Embedding of `HybridRetriever._get_paths_between_entities`: fewer
than two entities returns immediately with no query; otherwise each
result row is copied into a `GraphPath` with `dict.get` defaults; a
raising query is caught and yields the empty list. -/
def getPathsBetweenEntities (cfg : RetrieverConfig) (env : Env)
    (entities : List String) : List GraphPath × List Call :=
  if entities.length < 2 then ([], [])
  else
    match entities with
    | e1 :: e2 :: _ =>
      let q := buildPathQuery cfg e1 e2
      match env.executeQuery q with
      | Except.ok results =>
        (results.map (fun r =>
          { nodes := r.nodes.getD []
            relationships := r.relationships.getD []
            path_length := r.path_length.getD 0 }), [Call.graph q])
      | Except.error _ => ([], [Call.graph q])
    | _ => ([], [])

/-- The neighbor-formatting loop of `_format_graph_context`: `seen` is
the set of already-emitted `f"{source}-{target}"` keys (a list used only
through membership).  The Python locals `source`, `target`, `rels`,
`key` and `rel_str` are inlined. -/
def formatNeighborLines : List Row → List String → List String
  | [], _ => []
  | r :: rs, seen =>
    if r.source.getD "" ≠ "" ∧ r.target.getD "" ≠ "" then
      if (r.source.getD "" ++ "-" ++ r.target.getD "") ∈ seen then
        formatNeighborLines rs seen
      else
        ("- " ++ r.source.getD "" ++ " --["
          ++ (if r.relationships.getD [] = [] then "RELATED"
              else String.intercalate " -> " (r.relationships.getD []))
          ++ "]--> " ++ r.target.getD "")
          :: formatNeighborLines rs ((r.source.getD "" ++ "-" ++ r.target.getD "") :: seen)
    else formatNeighborLines rs seen

/-- Embedding of `HybridRetriever._format_graph_context`. -/
def formatGraphContext (neighbors : List Row) (paths : List GraphPath) : String :=
  String.intercalate "\n"
    (formatNeighborLines neighbors []
      ++ paths.map (fun p => "- Path: " ++ p.to_string))

/-- The per-entity neighbor loop of `retrieve` (step 3): accumulate
`all_neighbors` with `extend` across entities, in entity order. -/
def gatherNeighbors (cfg : RetrieverConfig) (env : Env) :
    List String → List Row × List Call
  | [] => ([], [])
  | e :: es =>
    let (rows, cs) := retrieveGraphNeighbors cfg env e none
    let (rows2, cs2) := gatherNeighbors cfg env es
    (rows ++ rows2, cs ++ cs2)

/-- Embedding of `HybridRetriever.retrieve`. -/
def retrieve (cfg : RetrieverConfig) (env : Env) (query : String)
    (includeGraph : Bool) : RetrievalResult × List Call :=
  let (entities, c1) :=
    if includeGraph then extractEntities env query else ([], [])
  let (vectorDocs, c2) := retrieveVector cfg env query none
  let chunks :=
    (vectorDocs.filter (fun d => d.document.getD "" ≠ "")).map
      (fun d => d.document.getD "")
  if entities = [] then
    ({ query := query, vector_chunks := chunks, graph_context := "",
       entities := entities, graph_paths := [] }, c1 ++ c2)
  else
    let (allNeighbors, c3) := gatherNeighbors cfg env entities
    let (paths, c4) := getPathsBetweenEntities cfg env entities
    ({ query := query, vector_chunks := chunks,
       graph_context := formatGraphContext allNeighbors paths,
       entities := entities, graph_paths := paths }, c1 ++ c2 ++ c3 ++ c4)

/-- Embedding of `HybridRetriever.retrieve_with_fallback`: probe graph
health first; an unhealthy or raising probe forces vector-only retrieval. -/
def retrieveWithFallback (cfg : RetrieverConfig) (env : Env)
    (query : String) : RetrievalResult × List Call :=
  match env.isHealthy with
  | Except.ok h =>
    if h then
      let (r, cs) := retrieve cfg env query true
      (r, Call.health :: cs)
    else
      let (r, cs) := retrieve cfg env query false
      (r, Call.health :: cs)
  | Except.error _ =>
    let (r, cs) := retrieve cfg env query false
    (r, Call.health :: cs)

/-- Whether `json.loads` decodes the given text as a JSON array. -/
def loadsArr (cs : List Char) : Bool :=
  match jsonLoads cs with
  | some (Json.arr _) => true
  | _ => false

/-- String `toList` distributes over append. -/
theorem toList_append (s t : String) : (s ++ t).toList = s.toList ++ t.toList := by
  simp [String.toList, String.data_append]

/-- A span extracted by `jsonSpan` is a contiguous substring of the input. -/
theorem jsonSpan_isSub {cs sp : List Char} (h : jsonSpan cs = some sp) :
    sp <:+: cs := by
  unfold jsonSpan at h
  split at h
  next i j heq1 heq2 =>
    split at h
    next hij =>
      refine ⟨cs.take i, (cs.drop i).drop (j - i + 1), ?_⟩
      rw [← Option.some.inj h]
      rw [List.append_assoc, List.take_append_drop, List.take_append_drop]
    next hij => exact absurd h (by simp)
  next => exact absurd h (by simp)

/-- Every contiguous substring arises as a bounded drop-then-take. -/
theorem isSub_eq_drop_take {sp cs : List Char} (h : sp <:+: cs) :
    ∃ i ≤ cs.length, ∃ m ≤ cs.length, sp = (cs.drop i).take m := by
  obtain ⟨p, t, hpt⟩ := h
  refine ⟨p.length, ?_, sp.length, ?_, ?_⟩
  · rw [← hpt]; simp
  · rw [← hpt]; simp; omega
  · rw [← hpt, List.append_assoc, List.drop_left, List.take_left]

/-- Reduce the "no substring decodes as a JSON array" hypothesis to a
bounded (hence decidable) statement about drops and takes. -/
theorem loadsArr_false_of_bounded {cs : List Char}
    (h : ∀ i ≤ cs.length, ∀ m ≤ cs.length, loadsArr ((cs.drop i).take m) = false) :
    ∀ sp : List Char, sp <:+: cs → loadsArr sp = false := by
  intro sp hsp
  obtain ⟨i, hi, m, hm, heq⟩ := isSub_eq_drop_take hsp
  rw [heq]
  exact h i hi m hm

/-- When the response decomposes as bracket-free prose around a block
that starts with the opening bracket and ends with the closing bracket,
the greedy pattern match recovers exactly that block. -/
theorem jsonSpan_decompose {p a t : List Char}
    (hp : '[' ∉ p) (ht : ']' ∉ t)
    (ha1 : a.head? = some '[') (ha2 : a.getLast? = some ']') :
    jsonSpan (p ++ a ++ t) = some a := by
  obtain ⟨a1, rfl⟩ : ∃ a1, a = '[' :: a1 := by
    cases a with
    | nil => exact absurd ha1 (by simp)
    | cons c cs =>
      have hc : c = '[' := by simpa using ha1
      exact ⟨cs, by rw [hc]⟩
  have ha2' : (('[' :: a1).reverse).head? = some ']' := by
    rw [List.head?_reverse]; exact ha2
  obtain ⟨ar, har⟩ : ∃ ar, ('[' :: a1).reverse = ']' :: ar := by
    cases hrev : ('[' :: a1).reverse with
    | nil => rw [hrev] at ha2'; exact absurd ha2' (by simp)
    | cons c cs =>
      rw [hrev] at ha2'
      have hc : c = ']' := by simpa using ha2'
      exact ⟨cs, by rw [hc]⟩
  have hlra : ar.length = a1.length := by
    have h0 := congrArg List.length har
    simp at h0
    omega
  have hlen2 : 1 ≤ a1.length := by
    cases a1 with
    | nil =>
      have h0 := congrArg List.head? har
      simp at h0
    | cons _ _ => simp only [List.length_cons]; omega
  have hfp : p.findIdx? (fun c => c = '[') = none := by
    rw [List.findIdx?_eq_none_iff]
    intro x hx
    simp only [decide_eq_false_iff_not]
    intro hx'
    exact hp (hx' ▸ hx)
  have hft : (t.reverse).findIdx? (fun c => c = ']') = none := by
    rw [List.findIdx?_eq_none_iff]
    intro x hx
    simp only [decide_eq_false_iff_not]
    intro hx'
    exact ht (hx' ▸ (List.mem_reverse.mp hx))
  have h0arr : List.findIdx? (fun c => c = '[') ('[' :: a1) = some 0 := by
    simp [List.findIdx?_cons]
  have h0rev : List.findIdx? (fun c => c = ']') (']' :: ar) = some 0 := by
    simp [List.findIdx?_cons]
  have hfind : (p ++ '[' :: a1 ++ t).findIdx? (fun c => c = '[') = some p.length := by
    rw [List.findIdx?_append, List.findIdx?_append, hfp, Option.none_or, h0arr]
    simp
  have hlast : lastIdxOf ']' (p ++ '[' :: a1 ++ t)
      = some (p.length + a1.length) := by
    unfold lastIdxOf
    rw [List.reverse_append, List.reverse_append, List.findIdx?_append, hft,
        Option.none_or, List.findIdx?_append, har, h0rev]
    simp
    omega
  unfold jsonSpan
  simp only [hfind, hlast]
  have hlt : p.length < p.length + a1.length := by omega
  rw [if_pos hlt]
  have hdrop : (p ++ '[' :: a1 ++ t).drop p.length = '[' :: a1 ++ t := by
    rw [List.append_assoc, List.drop_left]
  have harith : p.length + a1.length - p.length + 1 = ('[' :: a1).length := by
    simp only [List.length_cons]; omega
  rw [hdrop, harith]
  rw [show ('[' :: a1 ++ t) = ('[' :: a1) ++ t from rfl]
  rw [List.take_left]

/-- The de-duplication key of a neighbor record: the joined string
`source-target` (an ordered key; reversing source and target changes it
except when the dash-joined renderings collide). -/
def neighborKey (r : Row) : String :=
  r.source.getD "" ++ "-" ++ r.target.getD ""

/-- Python truthiness of both the source and the target name. -/
def validRow (r : Row) : Bool :=
  r.source.getD "" ≠ "" && r.target.getD "" ≠ ""

/-- The rendered line of one neighbor record. -/
def neighborLine (r : Row) : String :=
  "- " ++ r.source.getD "" ++ " --["
    ++ (if r.relationships.getD [] = [] then "RELATED"
        else String.intercalate " -> " (r.relationships.getD []))
    ++ "]--> " ++ r.target.getD ""

/-- Keep the first record for each `neighborKey`, in insertion order,
given the set of keys already seen. -/
def keepFirstByKey : List Row → List String → List Row
  | [], _ => []
  | r :: rs, seen =>
    if neighborKey r ∈ seen then keepFirstByKey rs seen
    else r :: keepFirstByKey rs (neighborKey r :: seen)

/-- Unfolding equation for `formatNeighborLines` at a cons cell. -/
theorem formatNeighborLines_cons (r : Row) (rs : List Row) (seen : List String) :
    formatNeighborLines (r :: rs) seen =
      if r.source.getD "" ≠ "" ∧ r.target.getD "" ≠ "" then
        if (r.source.getD "" ++ "-" ++ r.target.getD "") ∈ seen then
          formatNeighborLines rs seen
        else
          ("- " ++ r.source.getD "" ++ " --["
            ++ (if r.relationships.getD [] = [] then "RELATED"
                else String.intercalate " -> " (r.relationships.getD []))
            ++ "]--> " ++ r.target.getD "")
            :: formatNeighborLines rs ((r.source.getD "" ++ "-" ++ r.target.getD "") :: seen)
      else formatNeighborLines rs seen := rfl

/-- Unfolding equation for `keepFirstByKey` at a cons cell. -/
theorem keepFirstByKey_cons (r : Row) (rs : List Row) (seen : List String) :
    keepFirstByKey (r :: rs) seen =
      if neighborKey r ∈ seen then keepFirstByKey rs seen
      else r :: keepFirstByKey rs (neighborKey r :: seen) := rfl

/-- Records with a missing or empty source or target name are skipped
entirely: they emit no line and leave the seen-key set unchanged. -/
theorem formatNeighborLines_filter (ns : List Row) (seen : List String) :
    formatNeighborLines ns seen = formatNeighborLines (ns.filter validRow) seen := by
  induction ns generalizing seen with
  | nil => rfl
  | cons r rs ih =>
    by_cases hv : r.source.getD "" ≠ "" ∧ r.target.getD "" ≠ ""
    · have hb : validRow r = true := by
        simp only [validRow, Bool.and_eq_true, decide_eq_true_eq]
        exact hv
      rw [List.filter_cons_of_pos hb]
      rw [formatNeighborLines_cons r rs seen,
        formatNeighborLines_cons r (rs.filter validRow) seen,
        if_pos hv, if_pos hv]
      by_cases hm : (r.source.getD "" ++ "-" ++ r.target.getD "") ∈ seen
      · rw [if_pos hm, if_pos hm, ih]
      · rw [if_neg hm, if_neg hm, ih]
    · have hb : ¬ (validRow r = true) := by
        simp only [validRow, Bool.and_eq_true, decide_eq_true_eq]
        exact hv
      rw [List.filter_cons_of_neg hb, formatNeighborLines_cons r rs seen,
        if_neg hv, ih]

/-- On all-valid records, the neighbor-formatting loop is exactly
first-occurrence de-duplication by `neighborKey` followed by rendering. -/
theorem formatNeighborLines_eq_keepFirst (ns : List Row) (seen : List String)
    (h : ∀ r ∈ ns, validRow r = true) :
    formatNeighborLines ns seen = (keepFirstByKey ns seen).map neighborLine := by
  induction ns generalizing seen with
  | nil => rfl
  | cons r rs ih =>
    have hr : validRow r = true := h r (List.mem_cons_self r rs)
    have hv : r.source.getD "" ≠ "" ∧ r.target.getD "" ≠ "" := by
      simpa only [validRow, Bool.and_eq_true, decide_eq_true_eq] using hr
    have hrest : ∀ x ∈ rs, validRow x = true :=
      fun x hx => h x (List.mem_cons_of_mem r hx)
    rw [formatNeighborLines_cons r rs seen, keepFirstByKey_cons r rs seen, if_pos hv]
    by_cases hm : (r.source.getD "" ++ "-" ++ r.target.getD "") ∈ seen
    · rw [if_pos hm, if_pos (show neighborKey r ∈ seen from hm), ih seen hrest]
    · rw [if_neg hm, if_neg (show neighborKey r ∉ seen from hm), List.map_cons,
        ih ((r.source.getD "" ++ "-" ++ r.target.getD "") :: seen) hrest]
      rfl

/-- The documents section of the combined context, per the spec. -/
def docsSection (r : RetrievalResult) : List String :=
  if r.vector_chunks = [] then []
  else "## Relevant Documents" :: numberChunks 1 r.vector_chunks

/-- The graph-relationships section of the combined context, per the spec. -/
def relSection (r : RetrievalResult) : List String :=
  if r.graph_context = "" then []
  else ["\n## Knowledge Graph Relationships", r.graph_context]

/-- The graph-paths section of the combined context, per the spec. -/
def pathsSection (r : RetrievalResult) : List String :=
  if r.graph_paths = [] then []
  else "\n## Graph Paths" :: r.graph_paths.map (fun p => "- " ++ p.to_string)

/-- `getPathsBetweenEntities` with fewer than two entities returns no
paths and performs no call. -/
theorem getPaths_short (cfg : RetrieverConfig) (env : Env)
    (entities : List String) (h : entities.length < 2) :
    getPathsBetweenEntities cfg env entities = ([], []) := by
  unfold getPathsBetweenEntities
  rw [if_pos h]

/-- Unfolding equation for `getPathsBetweenEntities` on two or more
entities. -/
theorem getPaths_cons2 (cfg : RetrieverConfig) (env : Env)
    (e1 e2 : String) (rest : List String) :
    getPathsBetweenEntities cfg env (e1 :: e2 :: rest)
      = match env.executeQuery (buildPathQuery cfg e1 e2) with
        | Except.ok results =>
          (results.map (fun r =>
            ({ nodes := r.nodes.getD []
               relationships := r.relationships.getD []
               path_length := r.path_length.getD 0 } : GraphPath)),
            [Call.graph (buildPathQuery cfg e1 e2)])
        | Except.error _ => ([], [Call.graph (buildPathQuery cfg e1 e2)]) := rfl

/-- The filter-then-map of the vector chunks comprehension equals the
one-pass description "texts of the records whose document field is
present and non-empty". -/
theorem chunks_filterMap (docs : List VectorDoc) :
    (docs.filter (fun d => d.document.getD "" ≠ "")).map (fun d => d.document.getD "")
      = docs.filterMap (fun d =>
          match d.document with
          | some s => if s = "" then none else some s
          | none => none) := by
  induction docs with
  | nil => rfl
  | cons d ds ih =>
    cases hd : d.document with
    | none =>
      simp [List.filter_cons, List.filterMap_cons, hd]
      simpa using ih
    | some str =>
      by_cases hs : str = ""
      · simp [List.filter_cons, List.filterMap_cons, hd, hs]
        simpa using ih
      · simp [List.filter_cons, List.filterMap_cons, hd, hs]
        simpa using ih

/-- A vector-only retrieval performs exactly one external call: the
similarity search. -/
theorem retrieve_noGraph_trace (cfg : RetrieverConfig) (env : Env) (q : String) :
    (retrieve cfg env q false).2
      = [Call.vector cfg.collectionName q cfg.vectorTopK] := by
  cases hq : env.querySimilar cfg.collectionName q cfg.vectorTopK with
  | ok docs => simp [retrieve, retrieveVector, hq]
  | error e => simp [retrieve, retrieveVector, hq]

/-- A default configuration (top-k 5, max hops 2), used for concrete instances. -/
def cfg0 : RetrieverConfig :=
  { vectorTopK := 5, maxHops := 2, collectionName := "supply_chain_docs" }

/-- An environment in which every external call raises. -/
def envDown : Env :=
  { llm := fun _ => Except.error "connection refused"
    querySimilar := fun _ _ _ => Except.error "connection refused"
    executeQuery := fun _ => Except.error "connection refused"
    isHealthy := Except.error "connection refused" }

/-- C4 (amended): the Context Formatter de-duplicates neighbor records
by the ordered joined key `source-target` (not by the unordered pair):
among records with Python-truthy names, the emitted lines are exactly
the first occurrence of each key, rendered in insertion order, followed
by the path lines. -/
theorem C4_format_dedup_ordered_key (ns : List Row) (ps : List GraphPath) :
    formatGraphContext ns ps
      = String.intercalate "\n"
          ((keepFirstByKey (ns.filter validRow) []).map neighborLine
            ++ ps.map (fun p => "- Path: " ++ p.to_string)) := by
  unfold formatGraphContext
  rw [formatNeighborLines_filter, formatNeighborLines_eq_keepFirst]
  intro r hr
  exact (List.mem_filter.mp hr).2

/-- C4 counterexample: two records that are reversals of each other are
both emitted, while the claim predicts only the line of the first record
(the claim is refuted by the second conjunct: the output differs from
the one-record output the unordered-pair reading would give). -/
theorem C4_counterexample :
    formatGraphContext
        [{ source := some "A", target := some "B", nodes := none,
           relationships := some ["R"], path_length := none },
         { source := some "B", target := some "A", nodes := none,
           relationships := some ["S"], path_length := none }] []
      = "- A --[R]--> B\n- B --[S]--> A"
    ∧ formatGraphContext
        [{ source := some "A", target := some "B", nodes := none,
           relationships := some ["R"], path_length := none },
         { source := some "B", target := some "A", nodes := none,
           relationships := some ["S"], path_length := none }] []
      ≠ formatGraphContext
          [{ source := some "A", target := some "B", nodes := none,
             relationships := some ["R"], path_length := none }] [] := by
  constructor
  · rfl
  · decide

/-- C5: the combined context is the newline-join of the documents
section, then the graph-relationships section, then the graph-paths
section, and each section is empty exactly when its source field is
empty. -/
theorem C5_combined_context_sections (r : RetrievalResult) :
    r.get_combined_context
      = String.intercalate "\n" (docsSection r ++ relSection r ++ pathsSection r)
    ∧ (docsSection r = [] ↔ r.vector_chunks = [])
    ∧ (relSection r = [] ↔ r.graph_context = "")
    ∧ (pathsSection r = [] ↔ r.graph_paths = []) := by
  refine ⟨rfl, ?_, ?_, ?_⟩
  · unfold docsSection
    by_cases h : r.vector_chunks = [] <;> simp [h]
  · unfold relSection
    by_cases h : r.graph_context = "" <;> simp [h]
  · unfold pathsSection
    by_cases h : r.graph_paths = [] <;> simp [h]

/-- C7: with fewer than two entities the path finder returns the empty
sequence and issues no query against the graph store. -/
theorem C7_path_finder_short_input (cfg : RetrieverConfig) (env : Env)
    (entities : List String) (h : entities.length < 2) :
    getPathsBetweenEntities cfg env entities = ([], []) :=
  getPaths_short cfg env entities h

/-- C7 witness: a single-entity input on a live-looking store yields no
paths and no recorded graph call. -/
theorem C7_witness :
    getPathsBetweenEntities cfg0 envDown ["Singapore"] = ([], []) :=
  C7_path_finder_short_input cfg0 envDown ["Singapore"] (by decide)

/-- C10: neighbor records with a missing or empty source or target name
contribute nothing: formatting any record list equals formatting its
restriction to records with truthy source and target (so skipped
records emit no line and consume no de-duplication slot). -/
theorem C10_formatter_skips_invalid (ns : List Row) (ps : List GraphPath) :
    formatGraphContext ns ps = formatGraphContext (ns.filter validRow) ps := by
  unfold formatGraphContext
  rw [formatNeighborLines_filter]

/-- C1: `retrieve` always yields a `RetrievalResult` (totality holds by
construction of the embedding), and when the model call, the similarity
search and every graph query all raise, the result has empty
vector chunks, empty entities and empty graph context. -/
theorem C1_retrieve_all_failure (cfg : RetrieverConfig) (env : Env)
    (q : String) (ig : Bool)
    (hl : ∀ p, ∃ e, env.llm p = Except.error e)
    (hv : ∀ c qt n, ∃ e, env.querySimilar c qt n = Except.error e)
    (hg : ∀ s, ∃ e, env.executeQuery s = Except.error e) :
    (retrieve cfg env q ig).1
      = { query := q, vector_chunks := [], graph_context := "",
          entities := [], graph_paths := [] } := by
  obtain ⟨e1, he1⟩ := hl (entityExtractionPrompt q)
  obtain ⟨e2, he2⟩ := hv cfg.collectionName q cfg.vectorTopK
  have hex : extractEntities env q = ([], [Call.llm (entityExtractionPrompt q)]) := by
    simp [extractEntities, he1]
  cases ig with
  | false => simp [retrieve, retrieveVector, he2]
  | true => simp [retrieve, retrieveVector, he2, hex]

/-- C1 witness: the all-raising environment at a concrete question. -/
theorem C1_witness :
    (retrieve cfg0 envDown "How will the strike affect GlobalTech?" true).1
      = { query := "How will the strike affect GlobalTech?", vector_chunks := [],
          graph_context := "", entities := [], graph_paths := [] } :=
  C1_retrieve_all_failure cfg0 envDown _ true
    (fun _ => ⟨"connection refused", rfl⟩)
    (fun _ _ _ => ⟨"connection refused", rfl⟩)
    (fun _ => ⟨"connection refused", rfl⟩)

/-- An environment whose health probe reports unhealthy but whose other
calls succeed with fixed data. -/
def envUnhealthy : Env :=
  { llm := fun _ => Except.ok "[\"Singapore\"]"
    querySimilar := fun _ _ _ => Except.ok [{ document := some "Singapore strike" }]
    executeQuery := fun _ => Except.ok []
    isHealthy := Except.ok false }

/-- C6: when the health probe reports unhealthy or raises, fallback
retrieval returns exactly the vector-only retrieval result, and the
call trace contains no language-model call. -/
theorem C6_fallback_skips_llm (cfg : RetrieverConfig) (env : Env) (q : String)
    (h : env.isHealthy = Except.ok false ∨ ∃ e, env.isHealthy = Except.error e) :
    (retrieveWithFallback cfg env q).1 = (retrieve cfg env q false).1
    ∧ ∀ p, Call.llm p ∉ (retrieveWithFallback cfg env q).2 := by
  rcases hr : retrieve cfg env q false with ⟨r0, cs0⟩
  have hfb : retrieveWithFallback cfg env q = (r0, Call.health :: cs0) := by
    rcases h with h | ⟨e, h⟩ <;> simp [retrieveWithFallback, h, hr]
  have hcs : cs0 = [Call.vector cfg.collectionName q cfg.vectorTopK] := by
    have h2 := retrieve_noGraph_trace cfg env q
    rw [hr] at h2
    exact h2
  constructor
  · simp [hfb, hr]
  · intro p
    rw [hfb, hcs]
    simp

/-- C6 witness: fallback on a concretely unhealthy store. -/
theorem C6_witness :
    (retrieveWithFallback cfg0 envUnhealthy "q").1
      = (retrieve cfg0 envUnhealthy "q" false).1
    ∧ ∀ p, Call.llm p ∉ (retrieveWithFallback cfg0 envUnhealthy "q").2 :=
  C6_fallback_skips_llm cfg0 envUnhealthy "q" (Or.inl rfl)

/-- C9: whenever the similarity search returns a record list, the
result vector chunks are exactly the document texts of the records
whose document field is present and non-empty, in store order. -/
theorem C9_vector_chunks_filter (cfg : RetrieverConfig) (env : Env)
    (q : String) (ig : Bool) (docs : List VectorDoc)
    (h : env.querySimilar cfg.collectionName q cfg.vectorTopK = Except.ok docs) :
    (retrieve cfg env q ig).1.vector_chunks
      = docs.filterMap (fun d =>
          match d.document with
          | some s => if s = "" then none else some s
          | none => none) := by
  rcases hex : (if ig then extractEntities env q else ([], [])) with ⟨entities, c1⟩
  rcases hgn : gatherNeighbors cfg env entities with ⟨allN, c3⟩
  rcases hgp : getPathsBetweenEntities cfg env entities with ⟨paths, c4⟩
  by_cases hE : entities = []
  · simp [retrieve, retrieveVector, h, hex, hE]
    simpa using chunks_filterMap docs
  · simp [retrieve, retrieveVector, h, hex, hgn, hgp, hE]
    simpa using chunks_filterMap docs

/-- An environment whose similarity search returns records with
present, empty and missing document texts. -/
def envVec : Env :=
  { llm := fun _ => Except.error "down"
    querySimilar := fun _ _ _ => Except.ok
        [{ document := some "Singapore port strike" }, { document := some "" },
         { document := none }, { document := some "TechFlow makes chips" }]
    executeQuery := fun _ => Except.error "down"
    isHealthy := Except.ok true }

/-- C9 witness: the empty and missing documents are dropped, the others
kept in store order. -/
theorem C9_witness :
    (retrieve cfg0 envVec "q" true).1.vector_chunks
      = ["Singapore port strike", "TechFlow makes chips"] := by
  have h := C9_vector_chunks_filter cfg0 envVec "q" true
    [{ document := some "Singapore port strike" }, { document := some "" },
     { document := none }, { document := some "TechFlow makes chips" }] rfl
  rw [h]
  rfl

/-- An environment whose model reply wraps a JSON array in prose that
itself contains brackets. -/
def envBracketProse : Env :=
  { llm := fun _ => Except.ok "Answer: [\"Singapore\"] (see [docs])"
    querySimilar := fun _ _ _ => Except.error "down"
    executeQuery := fun _ => Except.error "down"
    isHealthy := Except.ok true }

/-- C2 counterexample: the reply contains the syntactically valid JSON
array substring exhibited by the decomposition in the first conjunct,
yet the extractor returns the empty list rather than that array
coerced to text, because the greedy bracket pattern also swallows the
bracketed trailing prose. -/
theorem C2_counterexample :
    envBracketProse.llm (entityExtractionPrompt "anything")
      = Except.ok ("Answer: " ++ "[\"Singapore\"]" ++ " (see [docs])")
    ∧ jsonLoads ("[\"Singapore\"]").toList = some (Json.arr [Json.str "Singapore"])
    ∧ (extractEntities envBracketProse "anything").1 = []
    ∧ (extractEntities envBracketProse "anything").1
        ≠ [Json.str "Singapore"].map pyStr := by
  have h3 : (extractEntities envBracketProse "anything").1 = [] := rfl
  refine ⟨?_, rfl, h3, ?_⟩
  · rw [show ("Answer: " ++ "[\"Singapore\"]" ++ " (see [docs])")
        = "Answer: [\"Singapore\"] (see [docs])" from by decide]
    rfl
  · rw [h3]
    decide

/-- C2 (amended): the extractor returns exactly the array elements
coerced to text whenever the reply decomposes as prose with no opening
bracket, then the JSON array (first character the opening bracket, last
character the closing bracket), then prose with no closing bracket;
brackets inside the surrounding prose instead defeat the greedy pattern
(see the counterexample). -/
theorem C2_extract_decomposed (env : Env) (q pre arrs post response : String)
    (xs : List Json)
    (hresp : env.llm (entityExtractionPrompt q) = Except.ok response)
    (hdec : response = pre ++ arrs ++ post)
    (hpre : '[' ∉ pre.toList) (hpost : ']' ∉ post.toList)
    (hhead : arrs.toList.head? = some '[')
    (hlastc : arrs.toList.getLast? = some ']')
    (hload : jsonLoads arrs.toList = some (Json.arr xs)) :
    (extractEntities env q).1 = xs.map pyStr := by
  have hspan : jsonSpan response.toList = some arrs.toList := by
    rw [hdec, toList_append, toList_append]
    exact jsonSpan_decompose hpre hpost hhead hlastc
  have hspan2 : jsonSpan response.data = some arrs.data := hspan
  have hload2 : jsonLoads arrs.data = some (Json.arr xs) := hload
  simp [extractEntities, hresp, parseEntityResponse, hspan2, hload2]

/-- An environment whose model reply wraps a JSON array in bracket-free
prose. -/
def envProse : Env :=
  { llm := fun _ => Except.ok "Sure: [\"Singapore\", \"GlobalTech\"] done."
    querySimilar := fun _ _ _ => Except.error "down"
    executeQuery := fun _ => Except.error "down"
    isHealthy := Except.ok true }

/-- C2 witness: bracket-free prose around the array is tolerated and
the two entity names are recovered. -/
theorem C2_witness :
    (extractEntities envProse "q").1 = ["Singapore", "GlobalTech"] := by
  have h := C2_extract_decomposed envProse "q"
    "Sure: " "[\"Singapore\", \"GlobalTech\"]" " done."
    "Sure: [\"Singapore\", \"GlobalTech\"] done."
    [Json.str "Singapore", Json.str "GlobalTech"]
    rfl (by decide) (by decide) (by decide) (by decide) (by decide) rfl
  rw [h]
  rfl

/-- A row faithfully reporting one graph path: the store returned the
path node names, the relationship types, and the length of one and the
same path. -/
def Row.isPathShaped (r : Row) : Prop :=
  ∃ ns rels, r.nodes = some ns ∧ r.relationships = some rels
    ∧ r.path_length = some (rels.length : Int)
    ∧ ns.length = rels.length + 1

/-- C3: when the graph store answers the path query with faithful path
rows, every `GraphPath` the path finder constructs from them satisfies
`path_length = |relationships|` and `|nodes| = |relationships| + 1`. -/
theorem C3_graphpath_invariant (cfg : RetrieverConfig) (env : Env)
    (entities : List String)
    (hwf : ∀ s rows, env.executeQuery s = Except.ok rows → ∀ r ∈ rows, r.isPathShaped)
    (p : GraphPath) (hp : p ∈ (getPathsBetweenEntities cfg env entities).1) :
    p.path_length = (p.relationships.length : Int)
    ∧ p.nodes.length = p.relationships.length + 1 := by
  rcases entities with _ | ⟨e1, _ | ⟨e2, rest⟩⟩
  · rw [getPaths_short cfg env [] (by simp)] at hp
    simp at hp
  · rw [getPaths_short cfg env [e1] (by simp)] at hp
    simp at hp
  · rw [getPaths_cons2 cfg env e1 e2 rest] at hp
    cases hq : env.executeQuery (buildPathQuery cfg e1 e2) with
    | error e =>
      rw [hq] at hp
      simp at hp
    | ok rows =>
      rw [hq] at hp
      simp only [List.mem_map] at hp
      obtain ⟨r, hr, hpr⟩ := hp
      obtain ⟨ns, rels, hn, hrel, hpl, hlen2⟩ := hwf _ _ hq r hr
      rw [← hpr]
      simp [hn, hrel, hpl, hlen2]

/-- The single faithful path row used by the C3 witness environment. -/
def pathRow0 : Row :=
  { source := none, target := none, nodes := some ["Singapore", "FlowChips"],
    relationships := some ["OPERATES_AT"], path_length := some 1 }

/-- An environment whose graph store answers every query with the one
faithful path row. -/
def envPathRow : Env :=
  { llm := fun _ => Except.error "down"
    querySimilar := fun _ _ _ => Except.error "down"
    executeQuery := fun _ => Except.ok [pathRow0]
    isHealthy := Except.ok true }

/-- C3 witness: the concrete path constructed from the faithful row
satisfies both equations. -/
theorem C3_witness :
    (GraphPath.mk ["Singapore", "FlowChips"] ["OPERATES_AT"] 1).path_length
      = ((GraphPath.mk ["Singapore", "FlowChips"] ["OPERATES_AT"] 1).relationships.length : Int)
    ∧ (GraphPath.mk ["Singapore", "FlowChips"] ["OPERATES_AT"] 1).nodes.length
      = (GraphPath.mk ["Singapore", "FlowChips"] ["OPERATES_AT"] 1).relationships.length + 1 :=
  C3_graphpath_invariant cfg0 envPathRow ["Singapore", "FlowChips"]
    (fun s rows h => by
      intro r hr
      have hrows : rows = [pathRow0] := by
        have h2 : (Except.ok [pathRow0] : Except String (List Row)) = Except.ok rows := h
        exact (Except.ok.inj h2).symm
      subst hrows
      rw [List.mem_singleton] at hr
      subst hr
      exact ⟨["Singapore", "FlowChips"], ["OPERATES_AT"], rfl, rfl, rfl, rfl⟩)
    (GraphPath.mk ["Singapore", "FlowChips"] ["OPERATES_AT"] 1)
    (by decide)

/-- C8: the extractor returns the empty list and never raises, both
when the model call itself raises and when the reply contains no
substring that decodes as a JSON array. -/
theorem C8_extract_empty_on_failure (env : Env) (q : String) :
    ((∃ e, env.llm (entityExtractionPrompt q) = Except.error e) →
      (extractEntities env q).1 = [])
    ∧ (∀ response, env.llm (entityExtractionPrompt q) = Except.ok response →
        (∀ sp : List Char, sp <:+: response.toList → loadsArr sp = false) →
        (extractEntities env q).1 = []) := by
  constructor
  · rintro ⟨e, he⟩
    simp [extractEntities, he]
  · intro response hresp hno
    have hgoal : parseEntityResponse response = [] := by
      unfold parseEntityResponse
      cases hs : jsonSpan response.toList with
      | none => rfl
      | some sp =>
        have harr := hno sp (jsonSpan_isSub hs)
        cases hl : jsonLoads sp with
        | none => simp [hl]
        | some j =>
          cases j with
          | arr xs => exact absurd harr (by simp [loadsArr, hl])
          | null => simp [hl]
          | bool b => simp [hl]
          | num n => simp [hl]
          | str s2 => simp [hl]
          | obj kvs => simp [hl]
    simp [extractEntities, hresp, hgoal]

/-- An environment whose model replies with prose containing no JSON
array at all. -/
def envNoArray : Env :=
  { llm := fun _ => Except.ok "I cannot extract entities"
    querySimilar := fun _ _ _ => Except.error "down"
    executeQuery := fun _ => Except.error "down"
    isHealthy := Except.ok true }

/-- C8 witness: both failure modes at concrete inputs — a raising model
call, and a concrete bracket-free reply. -/
theorem C8_witness :
    (extractEntities envDown "q").1 = []
    ∧ (extractEntities envNoArray "q").1 = [] :=
  ⟨(C8_extract_empty_on_failure envDown "q").1 ⟨"connection refused", rfl⟩,
   (C8_extract_empty_on_failure envNoArray "q").2 "I cannot extract entities" rfl
     (loadsArr_false_of_bounded (by decide))⟩

end AtlasGrag
